import Mathlib

/-!
Verification of the prayer-participation core of `server.js` from the
prayerwarriorserver repository.

The Postgres tables are modelled as lists of rows, `NOW()` as an explicit
`now : Nat` field of the store, and each HTTP handler body as a pure function
from a store (plus its request parameters) to a result and an updated store.
SQL `UPDATE ... WHERE p` is a pointwise map over the rows satisfying `p`
(evaluated on the old row), and `UPDATE ... RETURNING *` with `rows[0]`
is the first updated row in table order.  Counter columns are `Int`
(Postgres INTEGER is signed).  JavaScript's falsy test `if (!device_id)`
identifies a missing `device_id` with the empty string, so a `device_id`
parameter is a `String` where `""` means absent-or-empty.
-/

namespace PrayerWarrior

/-- Row of the `prayer_requests` table (`CREATE TABLE prayer_requests`,
server.js lines 78-89). -/
structure PrayerRequest where
  id : Nat
  topic_id : Nat
  device_id : Option String
  description : Option String
  prayer_count : Int
  active_prayers : Int
  created_at : Nat
  expires_at : Nat
  deriving Repr, DecidableEq

/-- Row of the `device_prayers` table (`CREATE TABLE device_prayers`,
server.js lines 92-101): the DevicePrayerLink of the spec. -/
structure DevicePrayer where
  device_id : String
  prayer_request_id : Nat
  joined_at : Nat
  completed_at : Option Nat
  deriving Repr, DecidableEq

/-- The durable state the participation endpoints read and write, plus the
clock `NOW()` reads. -/
structure Store where
  requests : List PrayerRequest
  device_prayers : List DevicePrayer
  now : Nat
  deriving Repr, DecidableEq

/-- The caller-facing error kinds of the participation endpoints:
`validation` is the 400 response for a missing required field, `notFound`
the 404 response. -/
inductive ApiError where
  | validation (msg : String)
  | notFound (msg : String)
  deriving Repr, DecidableEq

/-- `WHERE id = $1 AND expires_at > NOW()` as a row predicate. -/
def activeWithId (now rid : Nat) (r : PrayerRequest) : Bool :=
  r.id == rid && decide (now < r.expires_at)

/-- POST `/api/prayer-requests/:id/join` (server.js lines 349-402).
Checks `device_id`, then that a non-expired request exists, then whether a
`device_prayers` row for (device_id, request_id) exists; if not it inserts
the link and increments `prayer_count` (`UPDATE ... RETURNING *`), otherwise
it returns the current row unchanged (`SELECT * WHERE id = $1`, no expiry
filter on that second select).  The two `[]`/`none` fallback branches are
unreachable: a request row with the given id was already found. -/
def join (s : Store) (rid : Nat) (d : String) :
    Except ApiError PrayerRequest × Store :=
  if d = "" then (.error (.validation "Device ID is required"), s)
  else
    match s.requests.find? (activeWithId s.now rid) with
    | none => (.error (.notFound "Prayer request not found or expired"), s)
    | some _ =>
      match s.device_prayers.find?
          (fun l => l.device_id == d && l.prayer_request_id == rid) with
      | some _ =>
        match s.requests.find? (fun r => r.id == rid) with
        | some q => (.ok q, s)
        | none => (.error (.notFound "Prayer request not found or expired"), s)
      | none =>
        let link : DevicePrayer :=
          { device_id := d, prayer_request_id := rid,
            joined_at := s.now, completed_at := none }
        let f : PrayerRequest → PrayerRequest :=
          fun r => { r with prayer_count := r.prayer_count + 1 }
        match ((s.requests.filter (fun r => r.id == rid)).map f) with
        | q :: _ =>
          (.ok q,
           { s with
             requests :=
               s.requests.map (fun r => if r.id == rid then f r else r),
             device_prayers := s.device_prayers ++ [link] })
        | [] => (.error (.notFound "Prayer request not found or expired"), s)

/-- POST `/api/prayer-requests/:id/start-praying` (server.js lines 405-430):
`UPDATE prayer_requests SET active_prayers = active_prayers + 1
WHERE id = $1 AND expires_at > NOW() RETURNING *`; 404 when no row matched. -/
def startPraying (s : Store) (rid : Nat) (d : String) :
    Except ApiError PrayerRequest × Store :=
  if d = "" then (.error (.validation "Device ID is required"), s)
  else
    let f : PrayerRequest → PrayerRequest :=
      fun r => { r with active_prayers := r.active_prayers + 1 }
    match ((s.requests.filter (activeWithId s.now rid)).map f) with
    | [] => (.error (.notFound "Prayer request not found or expired"), s)
    | q :: _ =>
      (.ok q,
       { s with
         requests :=
           s.requests.map (fun r => if activeWithId s.now rid r then f r else r) })

/-- POST `/api/prayer-requests/:id/pray` (server.js lines 433-451), the
legacy endpoint: `UPDATE prayer_requests SET prayer_count = prayer_count + 1,
active_prayers = active_prayers + 1 WHERE id = $1 AND expires_at > NOW()
RETURNING *`; no device check of any kind. -/
def pray (s : Store) (rid : Nat) : Except ApiError PrayerRequest × Store :=
  let f : PrayerRequest → PrayerRequest :=
    fun r => { r with prayer_count := r.prayer_count + 1,
                      active_prayers := r.active_prayers + 1 }
  match ((s.requests.filter (activeWithId s.now rid)).map f) with
  | [] => (.error (.notFound "Prayer request not found or expired"), s)
  | q :: _ =>
    (.ok q,
     { s with
       requests :=
         s.requests.map (fun r => if activeWithId s.now rid r then f r else r) })

/-- The store the legacy pray endpoint leaves behind, as one conditional. -/
theorem pray_state (s : Store) (rid : Nat) :
    (pray s rid).2 =
      if s.requests.filter (activeWithId s.now rid) = [] then s
      else
        { s with requests := s.requests.map fun r =>
            if activeWithId s.now rid r then
              { r with prayer_count := r.prayer_count + 1,
                       active_prayers := r.active_prayers + 1 }
            else r } := by
  unfold pray
  cases h : s.requests.filter (activeWithId s.now rid) with
  | nil => simp [h]
  | cons a t => simp [h]

/-- POST `/api/prayer-requests/:id/stop-praying` (server.js lines 454-479):
`UPDATE prayer_requests SET active_prayers = GREATEST(active_prayers - 1, 0)
WHERE id = $1 AND expires_at > NOW() RETURNING *`; 404 when no row matched. -/
def stopPraying (s : Store) (rid : Nat) (d : String) :
    Except ApiError PrayerRequest × Store :=
  if d = "" then (.error (.validation "Device ID is required"), s)
  else
    let f : PrayerRequest → PrayerRequest :=
      fun r => { r with active_prayers := max (r.active_prayers - 1) 0 }
    match ((s.requests.filter (activeWithId s.now rid)).map f) with
    | [] => (.error (.notFound "Prayer request not found or expired"), s)
    | q :: _ =>
      (.ok q,
       { s with
         requests :=
           s.requests.map (fun r => if activeWithId s.now rid r then f r else r) })

/-- Predicate of the `UPDATE device_prayers` in the complete handler:
`WHERE device_id = $1 AND prayer_request_id = $2 AND completed_at IS NULL`. -/
def uncompletedLink (d : String) (rid : Nat) (l : DevicePrayer) : Bool :=
  l.device_id == d && l.prayer_request_id == rid && l.completed_at == none

/-- POST `/api/prayer-requests/:id/complete` (server.js lines 482-512):
sets `completed_at = NOW()` on the uncompleted link for (device_id, id) —
404 when no row matched — then
`UPDATE prayer_requests SET active_prayers = GREATEST(active_prayers - 1, 0)
WHERE id = $1` (note: no `expires_at` filter anywhere in this handler). -/
def complete (s : Store) (rid : Nat) (d : String) :
    Except ApiError Unit × Store :=
  if d = "" then (.error (.validation "Device ID is required"), s)
  else if (s.device_prayers.filter (uncompletedLink d rid)).isEmpty then
    (.error (.notFound "Prayer not found for this device or already completed"), s)
  else
    (.ok (),
     { s with
       device_prayers :=
         s.device_prayers.map fun l =>
           if uncompletedLink d rid l then { l with completed_at := some s.now }
           else l,
       requests :=
         s.requests.map fun r =>
           if r.id == rid then { r with active_prayers := max (r.active_prayers - 1) 0 }
           else r })

/-- GET `/api/stats` (server.js lines 536-557), the rows the aggregate runs
over: `FROM prayer_requests pr LEFT JOIN device_prayers dp ON
pr.id = dp.prayer_request_id WHERE pr.expires_at > NOW()`.  A request with
matching links yields one row per link; one with none yields a single row
with a NULL link. -/
def statsRows (s : Store) : List (PrayerRequest × Option DevicePrayer) :=
  (s.requests.filter (fun r => decide (s.now < r.expires_at))).flatMap fun r =>
    match s.device_prayers.filter (fun l => l.prayer_request_id == r.id) with
    | [] => [(r, none)]
    | ls => ls.map fun l => (r, some l)

/-- The aggregate row GET `/api/stats` computes on success:
`SUM(prayer_count)`, `SUM(active_prayers)` and
`COUNT(CASE WHEN dp.completed_at IS NOT NULL THEN 1 END)` over `statsRows`
(`COALESCE(..., 0)` turns the empty-table NULL sums into 0, which the fold
bases give for free). -/
def getStats (s : Store) : Int × Int × Nat :=
  ((statsRows s).foldl (fun a p => a + p.1.prayer_count) 0,
   (statsRows s).foldl (fun a p => a + p.1.active_prayers) 0,
   ((statsRows s).filter fun p =>
      match p.2 with
      | some l => l.completed_at != none
      | none => false).length)

/-- The statistics the spec describes (spec section 4.7, stated for
comparison with `getStats`): the sum of `prayer_count` over non-expired
requests, the sum of `active_prayers` over non-expired requests, and the
number of links with non-null `completed_at` belonging to non-expired
requests. -/
def specStats (s : Store) : Int × Int × Nat :=
  ((s.requests.filter (fun r => decide (s.now < r.expires_at))).foldl
     (fun a r => a + r.prayer_count) 0,
   (s.requests.filter (fun r => decide (s.now < r.expires_at))).foldl
     (fun a r => a + r.active_prayers) 0,
   (s.device_prayers.filter fun l =>
      l.completed_at != none &&
      (s.requests.filter (fun r => decide (s.now < r.expires_at))).any
        (fun r => r.id == l.prayer_request_id)).length)

/-- One mutating call of the participation API (the operations the spec's
state machine covers). -/
inductive Op where
  | joinOp (rid : Nat) (d : String)
  | startOp (rid : Nat) (d : String)
  | stopOp (rid : Nat) (d : String)
  | completeOp (rid : Nat) (d : String)
  | prayOp (rid : Nat)
  deriving Repr, DecidableEq

/-- The store left behind by one operation (the response is dropped). -/
def applyOp (s : Store) : Op → Store
  | .joinOp rid d => (join s rid d).2
  | .startOp rid d => (startPraying s rid d).2
  | .stopOp rid d => (stopPraying s rid d).2
  | .completeOp rid d => (complete s rid d).2
  | .prayOp rid => (pray s rid).2

/-- Run a sequence of operations left to right. -/
def runOps (s : Store) (ops : List Op) : Store :=
  ops.foldl applyOp s

/-- Is the operation the legacy `pray` endpoint? -/
def Op.isPray : Op → Bool
  | .prayOp _ => true
  | _ => false

/-- Is the operation one of start-praying, stop-praying, complete? -/
def Op.isActiveOp : Op → Bool
  | .startOp _ _ => true
  | .stopOp _ _ => true
  | .completeOp _ _ => true
  | _ => false

/-- The central invariant of the spec (sections 3 and 8): every request row's
`prayer_count` equals the number of `device_prayers` rows whose
`prayer_request_id` is the request's id. -/
def countInv (s : Store) : Prop :=
  ∀ r ∈ s.requests,
    r.prayer_count =
      (s.device_prayers.countP (fun l => l.prayer_request_id == r.id) : Int)

instance (s : Store) : Decidable (countInv s) := by
  unfold countInv; infer_instance

/-- Every request row's `active_prayers` is non-negative. -/
def activeNonneg (s : Store) : Prop :=
  ∀ r ∈ s.requests, 0 ≤ r.active_prayers

instance (s : Store) : Decidable (activeNonneg s) := by
  unfold activeNonneg; infer_instance

/-! ### Generic list lemmas -/

theorem map_find?_comm {α : Type} (g : α → α) (p : α → Bool)
    (h : ∀ a, p (g a) = p a) :
    ∀ l : List α, (l.map g).find? p = (l.find? p).map g := by
  intro l
  induction l with
  | nil => rfl
  | cons a t ih =>
    by_cases hp : p a
    · simp [List.find?_cons, h, hp]
    · simp only [Bool.not_eq_true] at hp
      simp [List.find?_cons, h, hp, ih]

theorem map_filter_comm {α : Type} (g : α → α) (p : α → Bool)
    (h : ∀ a, p (g a) = p a) :
    ∀ l : List α, (l.map g).filter p = (l.filter p).map g := by
  intro l
  induction l with
  | nil => rfl
  | cons a t ih =>
    by_cases hp : p a
    · simp [List.filter_cons, h, hp, ih]
    · simp only [Bool.not_eq_true] at hp
      simp [List.filter_cons, h, hp, ih]

theorem find?_eq_head?_filter {α : Type} (p : α → Bool) :
    ∀ l : List α, l.find? p = (l.filter p).head? := by
  intro l
  induction l with
  | nil => rfl
  | cons a t ih =>
    by_cases hp : p a
    · rw [List.find?_cons_of_pos _ hp, List.filter_cons_of_pos hp, List.head?_cons]
    · rw [List.find?_cons_of_neg _ hp, List.filter_cons_of_neg hp, ih]

/-! ### C6: the legacy pray endpoint -/

/-- `n` consecutive calls of the legacy pray endpoint, keeping the store. -/
def prayN (s : Store) (rid : Nat) : Nat → Store
  | 0 => s
  | n + 1 => (pray (prayN s rid n) rid).2

/-- The row update of one pray call applied `n` times. -/
def prayBump (n : Nat) (r : PrayerRequest) : PrayerRequest :=
  { r with prayer_count := r.prayer_count + (n : Int),
           active_prayers := r.active_prayers + (n : Int) }

theorem activeWithId_prayBump (now rid : Nat) (n : Nat) (r : PrayerRequest) :
    activeWithId now rid (prayBump n r) = activeWithId now rid r := rfl

theorem prayBump_zero (r : PrayerRequest) : prayBump 0 r = r := by
  simp [prayBump]

theorem prayBump_succ (n : Nat) (r : PrayerRequest) :
    prayBump 1 (prayBump n r) = prayBump (n + 1) r := by
  simp [prayBump, add_assoc]

/-- C6: every legacy pray call on a non-expired request with the given id
increments its `prayer_count` and `active_prayers` by exactly 1 and touches
nothing else, with no device deduplication: after `n` consecutive calls the
store holds exactly the original rows with both counters increased by `n` on
the rows the call's `UPDATE` matches, the `device_prayers` table unchanged
(no link is ever created), and the clock unchanged. -/
theorem c6_pray_iterated (s : Store) (rid : Nat) (n : Nat) :
    prayN s rid n =
      { requests := s.requests.map fun r =>
          if activeWithId s.now rid r then prayBump n r else r,
        device_prayers := s.device_prayers,
        now := s.now } := by
  induction n with
  | zero =>
    simp only [prayN, prayBump_zero]
    have h : ∀ r ∈ s.requests,
        (if activeWithId s.now rid r then r else r) = id r := by
      intro r _; simp
    cases s with
    | mk rs dps now => simp only [List.map_congr_left h, List.map_id]
  | succ n ih =>
    show (pray (prayN s rid n) rid).2 = _
    rw [ih, pray_state]
    have hcomm := map_filter_comm
      (fun r => if activeWithId s.now rid r then prayBump n r else r)
      (activeWithId s.now rid)
      (by
        intro r
        by_cases hp : activeWithId s.now rid r <;>
          simp [hp, activeWithId_prayBump])
      s.requests
    by_cases hf : s.requests.filter (activeWithId s.now rid) = []
    · have hall := List.filter_eq_nil_iff.mp hf
      have hmap : ∀ m : Nat, (s.requests.map fun r =>
          if activeWithId s.now rid r then prayBump m r else r) = s.requests := by
        intro m
        have h : ∀ r ∈ s.requests,
            (if activeWithId s.now rid r then prayBump m r else r) = id r := by
          intro r hr; simp [hall r hr]
        rw [List.map_congr_left h, List.map_id]
      simp [hcomm, hf, hmap]
    · obtain ⟨a, t, hat⟩ : ∃ a t,
          s.requests.filter (activeWithId s.now rid) = a :: t := by
        cases h : s.requests.filter (activeWithId s.now rid) with
        | nil => exact absurd h hf
        | cons a t => exact ⟨a, t, rfl⟩
      have hreq : ((s.requests.map fun r =>
            if activeWithId s.now rid r then prayBump n r else r).map fun r =>
              if activeWithId s.now rid r then
                { r with prayer_count := r.prayer_count + 1,
                         active_prayers := r.active_prayers + 1 }
              else r) =
          s.requests.map fun r =>
            if activeWithId s.now rid r then prayBump (n + 1) r else r := by
        rw [List.map_map]
        apply List.map_congr_left
        intro r _
        by_cases hp : activeWithId s.now rid r
        · simp only [Function.comp_apply, hp, if_true, activeWithId_prayBump]
          simp [prayBump, Nat.cast_succ, add_assoc]
        · simp [Function.comp_apply, hp]
      simp only [hcomm, hat, List.map_cons]
      rw [if_neg (List.cons_ne_nil _ _)]
      simp only [Store.mk.injEq, and_true]
      exact hreq

/-! ### C7: active_prayers never goes negative -/

theorem activeNonneg_applyOp (s : Store) (op : Op)
    (hop : op.isActiveOp = true) (h : activeNonneg s) :
    activeNonneg (applyOp s op) := by
  cases op with
  | joinOp rid d => simp [Op.isActiveOp] at hop
  | prayOp rid => simp [Op.isActiveOp] at hop
  | startOp rid d =>
    show activeNonneg (startPraying s rid d).2
    by_cases hd : d = ""
    · simpa [startPraying, hd] using h
    · cases hm : (s.requests.filter (activeWithId s.now rid)).map
          (fun r => { r with active_prayers := r.active_prayers + 1 }) with
      | nil => simpa [startPraying, hd, hm] using h
      | cons q t =>
        simp only [startPraying, hd, if_false, hm]
        intro r' hr'
        obtain ⟨r, hr, rfl⟩ := List.mem_map.mp hr'
        by_cases hp : activeWithId s.now rid r
        · have := h r hr; simp [hp]; omega
        · simp only [Bool.not_eq_true] at hp
          simpa [hp] using h r hr
  | stopOp rid d =>
    show activeNonneg (stopPraying s rid d).2
    by_cases hd : d = ""
    · simpa [stopPraying, hd] using h
    · cases hm : (s.requests.filter (activeWithId s.now rid)).map
          (fun r => { r with active_prayers := max (r.active_prayers - 1) 0 }) with
      | nil => simpa [stopPraying, hd, hm] using h
      | cons q t =>
        simp only [stopPraying, hd, if_false, hm]
        intro r' hr'
        obtain ⟨r, hr, rfl⟩ := List.mem_map.mp hr'
        by_cases hp : activeWithId s.now rid r
        · simp [hp, le_max_right]
        · simp only [Bool.not_eq_true] at hp
          simpa [hp] using h r hr
  | completeOp rid d =>
    show activeNonneg (complete s rid d).2
    by_cases hd : d = ""
    · simpa [complete, hd] using h
    · by_cases he : (s.device_prayers.filter (uncompletedLink d rid)).isEmpty
      · simpa [complete, hd, he] using h
      · simp only [complete, hd, he, if_false]
        intro r' hr'
        obtain ⟨r, hr, rfl⟩ := List.mem_map.mp hr'
        by_cases hp : (r.id == rid) = true
        · simp [hp, le_max_right]
        · simpa [hp] using h r hr

/-- C7: for a store all of whose requests have non-negative `active_prayers`,
any sequence of start-praying, stop-praying and complete calls leaves every
request's `active_prayers` non-negative (stop-praying and complete decrement
through `GREATEST(active_prayers - 1, 0)`). -/
theorem c7_active_nonneg (ops : List Op) (s : Store)
    (hops : ∀ op ∈ ops, op.isActiveOp = true) (h : activeNonneg s) :
    activeNonneg (runOps s ops) := by
  induction ops generalizing s with
  | nil => exact h
  | cons op t ih =>
    show activeNonneg (List.foldl applyOp (applyOp s op) t)
    exact ih (applyOp s op)
      (fun o ho => hops o (List.mem_cons_of_mem _ ho))
      (activeNonneg_applyOp s op (hops op (List.mem_cons_self _ _)) h)

/-- Witness for `c7_active_nonneg` at a concrete store and call sequence. -/
theorem c7_active_nonneg_witness :
    activeNonneg (runOps ⟨[⟨1, 1, none, none, 0, 0, 0, 10⟩], [], 0⟩
      [Op.startOp 1 "A", Op.stopOp 1 "A", Op.stopOp 1 "A"]) :=
  c7_active_nonneg _ _ (by decide) (by decide)

/-! ### C10: start/stop-praying ignore the device_id value -/

/-- C10: the start-praying and stop-praying handlers read `device_id` only
through the presence check `if (!device_id)`: any two present (non-empty)
device ids give identical responses and identical stores, and an absent or
empty device id yields the validation error with the store untouched. -/
theorem c10_start_stop_device_oblivious (s : Store) (rid : Nat)
    (d₁ d₂ : String) (h₁ : d₁ ≠ "") (h₂ : d₂ ≠ "") :
    startPraying s rid d₁ = startPraying s rid d₂ ∧
    stopPraying s rid d₁ = stopPraying s rid d₂ ∧
    startPraying s rid "" = (.error (.validation "Device ID is required"), s) ∧
    stopPraying s rid "" = (.error (.validation "Device ID is required"), s) := by
  refine ⟨?_, ?_, by simp [startPraying], by simp [stopPraying]⟩ <;>
    simp [startPraying, stopPraying, h₁, h₂]

/-- Witness for `c10_start_stop_device_oblivious` at concrete inputs. -/
theorem c10_start_stop_device_oblivious_witness :
    startPraying ⟨[⟨1, 1, none, none, 0, 0, 0, 10⟩], [], 0⟩ 1 "A" =
        startPraying ⟨[⟨1, 1, none, none, 0, 0, 0, 10⟩], [], 0⟩ 1 "B" ∧
    stopPraying ⟨[⟨1, 1, none, none, 0, 0, 0, 10⟩], [], 0⟩ 1 "A" =
        stopPraying ⟨[⟨1, 1, none, none, 0, 0, 0, 10⟩], [], 0⟩ 1 "B" ∧
    startPraying ⟨[⟨1, 1, none, none, 0, 0, 0, 10⟩], [], 0⟩ 1 "" =
        (.error (.validation "Device ID is required"),
         ⟨[⟨1, 1, none, none, 0, 0, 0, 10⟩], [], 0⟩) ∧
    stopPraying ⟨[⟨1, 1, none, none, 0, 0, 0, 10⟩], [], 0⟩ 1 "" =
        (.error (.validation "Device ID is required"),
         ⟨[⟨1, 1, none, none, 0, 0, 0, 10⟩], [], 0⟩) :=
  c10_start_stop_device_oblivious _ 1 "A" "B" (by decide) (by decide)

/-! ### C2: NotFound on missing or expired requests -/

theorem activeWithId_iff (now rid : Nat) (r : PrayerRequest) :
    activeWithId now rid r = true ↔ (r.id = rid ∧ now < r.expires_at) := by
  simp [activeWithId]

theorem uncompletedLink_iff (d : String) (rid : Nat) (l : DevicePrayer) :
    uncompletedLink d rid l = true ↔
      (l.device_id = d ∧ l.prayer_request_id = rid ∧ l.completed_at = none) := by
  simp [uncompletedLink, and_assoc]

/-- C2 (amended): when no non-expired request with the given id exists,
join, start-praying, stop-praying and the legacy pray all fail with the
NotFound error and leave the store untouched; the complete endpoint,
however, never consults `prayer_requests` at all — it fails with its own
NotFound error (leaving the store untouched) exactly when no uncompleted
link for (device_id, request_id) exists, independently of expiry. -/
theorem c2_missing_or_expired (s : Store) (rid : Nat) (d : String)
    (hd : d ≠ "")
    (hno : ∀ r ∈ s.requests, ¬(r.id = rid ∧ s.now < r.expires_at)) :
    join s rid d = (.error (.notFound "Prayer request not found or expired"), s) ∧
    startPraying s rid d =
      (.error (.notFound "Prayer request not found or expired"), s) ∧
    stopPraying s rid d =
      (.error (.notFound "Prayer request not found or expired"), s) ∧
    pray s rid = (.error (.notFound "Prayer request not found or expired"), s) ∧
    ((∀ l ∈ s.device_prayers,
        ¬(l.device_id = d ∧ l.prayer_request_id = rid ∧ l.completed_at = none)) →
      complete s rid d =
        (.error (.notFound "Prayer not found for this device or already completed"),
         s)) := by
  have hfil : s.requests.filter (activeWithId s.now rid) = [] :=
    List.filter_eq_nil_iff.mpr fun r hr => by
      rw [activeWithId_iff]; exact hno r hr
  have hfind : s.requests.find? (activeWithId s.now rid) = none :=
    List.find?_eq_none.mpr fun r hr => by
      rw [activeWithId_iff]; exact hno r hr
  refine ⟨?_, ?_, ?_, ?_, ?_⟩
  · simp [join, hd, hfind]
  · simp [startPraying, hd, hfil]
  · simp [stopPraying, hd, hfil]
  · simp [pray, hfil]
  · intro hl
    have hfl : s.device_prayers.filter (uncompletedLink d rid) = [] :=
      List.filter_eq_nil_iff.mpr fun l hml => by
        rw [uncompletedLink_iff]; exact hl l hml
    simp [complete, hd, hfl]

/-- Witness for `c2_missing_or_expired` on the empty store. -/
theorem c2_missing_or_expired_witness :
    join ⟨[], [], 0⟩ 1 "A" =
      (.error (.notFound "Prayer request not found or expired"), ⟨[], [], 0⟩) ∧
    startPraying ⟨[], [], 0⟩ 1 "A" =
      (.error (.notFound "Prayer request not found or expired"), ⟨[], [], 0⟩) ∧
    stopPraying ⟨[], [], 0⟩ 1 "A" =
      (.error (.notFound "Prayer request not found or expired"), ⟨[], [], 0⟩) ∧
    pray ⟨[], [], 0⟩ 1 =
      (.error (.notFound "Prayer request not found or expired"), ⟨[], [], 0⟩) ∧
    ((∀ l ∈ (⟨[], [], 0⟩ : Store).device_prayers,
        ¬(l.device_id = "A" ∧ l.prayer_request_id = 1 ∧ l.completed_at = none)) →
      complete ⟨[], [], 0⟩ 1 "A" =
        (.error (.notFound "Prayer not found for this device or already completed"),
         ⟨[], [], 0⟩)) :=
  c2_missing_or_expired ⟨[], [], 0⟩ 1 "A" (by decide) (by decide)

/-- C2 counterexample: the only request of this store is expired
(`expires_at = 5 ≤ now = 10`), yet the complete endpoint — whose SQL never
filters on `expires_at` — succeeds for the device holding an uncompleted
link and mutates the store instead of failing NotFound. -/
theorem c2_complete_ignores_expiry :
    (∀ r ∈ (⟨[⟨1, 1, none, none, 0, 3, 0, 5⟩], [⟨"A", 1, 0, none⟩], 10⟩ :
        Store).requests, ¬(r.id = 1 ∧ (10 : Nat) < r.expires_at)) ∧
    (complete ⟨[⟨1, 1, none, none, 0, 3, 0, 5⟩], [⟨"A", 1, 0, none⟩], 10⟩
        1 "A").1 = .ok () ∧
    (complete ⟨[⟨1, 1, none, none, 0, 3, 0, 5⟩], [⟨"A", 1, 0, none⟩], 10⟩
        1 "A").2 ≠
      ⟨[⟨1, 1, none, none, 0, 3, 0, 5⟩], [⟨"A", 1, 0, none⟩], 10⟩ :=
  ⟨by decide, rfl, by decide⟩

/-! ### C1: prayer_count equals the number of links -/

theorem countInv_join (s : Store) (rid : Nat) (d : String) (h : countInv s) :
    countInv (join s rid d).2 := by
  by_cases hd : d = ""
  · simpa [join, hd] using h
  · cases hfind : s.requests.find? (activeWithId s.now rid) with
    | none => simpa [join, hd, hfind] using h
    | some r₀ =>
      cases hlink : s.device_prayers.find?
          (fun l => l.device_id == d && l.prayer_request_id == rid) with
      | some l₀ =>
        cases hq : s.requests.find? (fun r => r.id == rid) with
        | some q => simpa [join, hd, hfind, hlink, hq] using h
        | none => simpa [join, hd, hfind, hlink, hq] using h
      | none =>
        cases hm : (s.requests.filter (fun r => r.id == rid)).map
            (fun r => { r with prayer_count := r.prayer_count + 1 }) with
        | nil => simpa [join, hd, hfind, hlink, hm] using h
        | cons q t =>
          simp only [join, hd, if_false, hfind, hlink, hm]
          intro r' hr'
          obtain ⟨r, hr, rfl⟩ := List.mem_map.mp hr'
          have hpc := h r hr
          by_cases hid : (r.id == rid) = true
          · have hr_id : r.id = rid := by simpa using hid
            simp only [hid, if_true]
            simp [List.countP_append, List.countP_cons, hr_id, hpc]
          · have hne : ¬ rid = r.id := fun hh => by simp [hh.symm] at hid
            simp only [hid, if_false]
            simp [List.countP_append, List.countP_cons, hne, hpc]

theorem countInv_startPraying (s : Store) (rid : Nat) (d : String)
    (h : countInv s) : countInv (startPraying s rid d).2 := by
  by_cases hd : d = ""
  · simpa [startPraying, hd] using h
  · cases hm : (s.requests.filter (activeWithId s.now rid)).map
        (fun r => { r with active_prayers := r.active_prayers + 1 }) with
    | nil => simpa [startPraying, hd, hm] using h
    | cons q t =>
      simp only [startPraying, hd, if_false, hm]
      intro r' hr'
      obtain ⟨r, hr, rfl⟩ := List.mem_map.mp hr'
      by_cases hp : activeWithId s.now rid r <;> simpa [hp] using h r hr

theorem countInv_stopPraying (s : Store) (rid : Nat) (d : String)
    (h : countInv s) : countInv (stopPraying s rid d).2 := by
  by_cases hd : d = ""
  · simpa [stopPraying, hd] using h
  · cases hm : (s.requests.filter (activeWithId s.now rid)).map
        (fun r => { r with active_prayers := max (r.active_prayers - 1) 0 }) with
    | nil => simpa [stopPraying, hd, hm] using h
    | cons q t =>
      simp only [stopPraying, hd, if_false, hm]
      intro r' hr'
      obtain ⟨r, hr, rfl⟩ := List.mem_map.mp hr'
      by_cases hp : activeWithId s.now rid r <;> simpa [hp] using h r hr

theorem countInv_complete (s : Store) (rid : Nat) (d : String)
    (h : countInv s) : countInv (complete s rid d).2 := by
  by_cases hd : d = ""
  · simpa [complete, hd] using h
  · by_cases he : (s.device_prayers.filter (uncompletedLink d rid)).isEmpty
    · simpa [complete, hd, he] using h
    · simp only [complete, hd, he, if_false]
      intro r' hr'
      obtain ⟨r, hr, rfl⟩ := List.mem_map.mp hr'
      have hcount : ∀ n : Nat,
          List.countP (fun l => l.prayer_request_id == n)
            (s.device_prayers.map fun l =>
              if uncompletedLink d rid l then { l with completed_at := some s.now }
              else l) =
          List.countP (fun l => l.prayer_request_id == n) s.device_prayers := by
        intro n
        rw [List.countP_map]
        apply List.countP_congr
        intro l _
        by_cases hu : uncompletedLink d rid l <;> simp [hu, Function.comp_apply]
      by_cases hp : (r.id == rid) = true <;>
        simpa [hp, hcount] using h r hr

/-- C1 (amended): starting from any store satisfying the central invariant
— every request's `prayer_count` equals the number of `device_prayers` rows
for it — any sequence of join, start-praying, stop-praying and complete
calls preserves the invariant.  The legacy pray endpoint is excluded: it
increments `prayer_count` without inserting a link and breaks the equality
(see the counterexample). -/
theorem c1_count_invariant_preserved (ops : List Op) (s : Store)
    (hops : ∀ op ∈ ops, op.isPray = false) (h : countInv s) :
    countInv (runOps s ops) := by
  induction ops generalizing s with
  | nil => exact h
  | cons op t ih =>
    show countInv (List.foldl applyOp (applyOp s op) t)
    refine ih (applyOp s op) (fun o ho => hops o (List.mem_cons_of_mem _ ho)) ?_
    cases op with
    | joinOp rid d => exact countInv_join s rid d h
    | startOp rid d => exact countInv_startPraying s rid d h
    | stopOp rid d => exact countInv_stopPraying s rid d h
    | completeOp rid d => exact countInv_complete s rid d h
    | prayOp rid => simpa [Op.isPray] using hops _ (List.mem_cons_self _ _)

/-- Witness for `c1_count_invariant_preserved` at a concrete store and
call sequence. -/
theorem c1_count_invariant_preserved_witness :
    countInv (runOps ⟨[⟨1, 1, none, none, 0, 0, 0, 10⟩], [], 0⟩
      [Op.joinOp 1 "A", Op.startOp 1 "A", Op.completeOp 1 "A",
       Op.joinOp 1 "A", Op.joinOp 1 "B"]) :=
  c1_count_invariant_preserved _ _ (by decide) (by decide)

/-- C1 counterexample: the claim includes the legacy pray endpoint among
the invariant-preserving operations, but one pray call increments
`prayer_count` with no link inserted, so the equality fails afterwards. -/
theorem c1_pray_breaks_count_invariant :
    countInv ⟨[⟨1, 1, none, none, 0, 0, 0, 10⟩], [], 0⟩ ∧
    ¬ countInv (runOps ⟨[⟨1, 1, none, none, 0, 0, 0, 10⟩], [], 0⟩
        [Op.prayOp 1]) := by decide

/-! ### C5: the complete operation's contract -/

/-- C5: with a device id present, complete fails with its NotFound error
exactly when no uncompleted link for (device_id, request_id) exists — the
same single error for "never joined" and "already completed"; otherwise it
succeeds, after which completing the same pair again fails with that
NotFound error (the `completed_at IS NULL` guard); and a link whose
`completed_at` is set survives, unchanged, every operation of the API —
the transition is one-way. -/
theorem c5_complete_contract (s : Store) (rid : Nat) (d : String)
    (hd : d ≠ "") :
    ((complete s rid d).1 =
        .error (.notFound "Prayer not found for this device or already completed") ↔
      ∀ l ∈ s.device_prayers,
        ¬(l.device_id = d ∧ l.prayer_request_id = rid ∧ l.completed_at = none)) ∧
    ((complete s rid d).1 ≠
        .error (.notFound "Prayer not found for this device or already completed") →
      (complete s rid d).1 = .ok () ∧
      (complete (complete s rid d).2 rid d).1 =
        .error (.notFound "Prayer not found for this device or already completed")) ∧
    (∀ op : Op, ∀ l ∈ s.device_prayers, l.completed_at ≠ none →
      l ∈ (applyOp s op).device_prayers) := by
  refine ⟨⟨?_, ?_⟩, ?_, ?_⟩
  · intro herr
    by_cases he : (s.device_prayers.filter (uncompletedLink d rid)).isEmpty
    · intro l hl hcon
      have hu : uncompletedLink d rid l = true := (uncompletedLink_iff d rid l).mpr hcon
      have hfil := List.isEmpty_iff.mp he
      exact List.filter_eq_nil_iff.mp hfil l hl hu
    · exfalso
      simp [complete, hd, he] at herr
  · intro hall
    have hfil : s.device_prayers.filter (uncompletedLink d rid) = [] :=
      List.filter_eq_nil_iff.mpr fun l hl => by
        rw [uncompletedLink_iff]; exact hall l hl
    simp [complete, hd, hfil]
  · intro hne
    by_cases he : (s.device_prayers.filter (uncompletedLink d rid)).isEmpty
    · exact absurd (by simp [complete, hd, he]) hne
    · refine ⟨by simp [complete, hd, he], ?_⟩
      have hs₂ : (complete s rid d).2 =
          { s with
            requests := s.requests.map fun r =>
              if r.id == rid then
                { r with active_prayers := max (r.active_prayers - 1) 0 } else r,
            device_prayers := s.device_prayers.map fun l =>
              if uncompletedLink d rid l then
                { l with completed_at := some s.now } else l } := by
        simp [complete, hd, he]
      have hall2 : ∀ l ∈ s.device_prayers,
          uncompletedLink d rid
            (if uncompletedLink d rid l then
              { l with completed_at := some s.now } else l) = false := by
        intro l hl
        by_cases hu : uncompletedLink d rid l = true
        · obtain ⟨hA, hB, hC⟩ := (uncompletedLink_iff d rid l).mp hu
          simp [uncompletedLink, hA, hB, hC]
        · have hnp : ¬(l.device_id = d ∧ l.prayer_request_id = rid ∧
              l.completed_at = none) := fun hc =>
            hu ((uncompletedLink_iff d rid l).mpr hc)
          simp [uncompletedLink, hnp, and_assoc]
          exact fun hA hB hC => hnp ⟨hA, hB, hC⟩
      have hfil3 : ((s.device_prayers.map fun l =>
          if uncompletedLink d rid l then
            { l with completed_at := some s.now } else l).filter
              (uncompletedLink d rid)) = [] := by
        refine List.filter_eq_nil_iff.mpr ?_
        intro x hx
        obtain ⟨l, hl, rfl⟩ := List.mem_map.mp hx
        intro hcon
        rw [hall2 l hl] at hcon
        cases hcon
      rw [hs₂]
      simp [complete, hd, hfil3, hall2]
  · intro op l hl hc
    cases op with
    | joinOp rid' d' =>
      show l ∈ (join s rid' d').2.device_prayers
      by_cases hd' : d' = ""
      · simpa [join, hd'] using hl
      · cases hfind : s.requests.find? (activeWithId s.now rid') with
        | none => simpa [join, hd', hfind] using hl
        | some r₀ =>
          cases hlink : s.device_prayers.find?
              (fun x => x.device_id == d' && x.prayer_request_id == rid') with
          | some l₀ =>
            cases hq : s.requests.find? (fun r => r.id == rid') with
            | some q => simpa [join, hd', hfind, hlink, hq] using hl
            | none => simpa [join, hd', hfind, hlink, hq] using hl
          | none =>
            cases hm : (s.requests.filter (fun r => r.id == rid')).map
                (fun r => { r with prayer_count := r.prayer_count + 1 }) with
            | nil => simpa [join, hd', hfind, hlink, hm] using hl
            | cons q t =>
              simp only [join, hd', if_false, hfind, hlink, hm]
              exact List.mem_append_left _ hl
    | startOp rid' d' =>
      show l ∈ (startPraying s rid' d').2.device_prayers
      by_cases hd' : d' = ""
      · simpa [startPraying, hd'] using hl
      · cases hm : (s.requests.filter (activeWithId s.now rid')).map
            (fun r => { r with active_prayers := r.active_prayers + 1 }) with
        | nil => simpa [startPraying, hd', hm] using hl
        | cons q t =>
          simp only [startPraying, hd', if_false, hm]
          exact hl
    | stopOp rid' d' =>
      show l ∈ (stopPraying s rid' d').2.device_prayers
      by_cases hd' : d' = ""
      · simpa [stopPraying, hd'] using hl
      · cases hm : (s.requests.filter (activeWithId s.now rid')).map
            (fun r => { r with active_prayers := max (r.active_prayers - 1) 0 }) with
        | nil => simpa [stopPraying, hd', hm] using hl
        | cons q t =>
          simp only [stopPraying, hd', if_false, hm]
          exact hl
    | prayOp rid' =>
      show l ∈ (pray s rid').2.device_prayers
      rw [pray_state]
      split <;> exact hl
    | completeOp rid' d' =>
      show l ∈ (complete s rid' d').2.device_prayers
      by_cases hd' : d' = ""
      · simpa [complete, hd'] using hl
      · by_cases he' : (s.device_prayers.filter (uncompletedLink d' rid')).isEmpty
        · simpa [complete, hd', he'] using hl
        · simp only [complete, hd', he', if_false]
          have hu : ¬ uncompletedLink d' rid' l = true := by
            cases hcc : l.completed_at with
            | none => exact absurd hcc hc
            | some tt => simp [uncompletedLink, hcc]
          exact List.mem_map.mpr ⟨l, hl, by simp [hu]⟩

/-- Witness for `c5_complete_contract` at a concrete store. -/
theorem c5_complete_contract_witness :
    ((complete ⟨[⟨1, 1, none, none, 1, 1, 0, 10⟩], [⟨"A", 1, 0, none⟩], 3⟩
        1 "A").1 =
        .error (.notFound "Prayer not found for this device or already completed") ↔
      ∀ l ∈ (⟨[⟨1, 1, none, none, 1, 1, 0, 10⟩], [⟨"A", 1, 0, none⟩], 3⟩ :
          Store).device_prayers,
        ¬(l.device_id = "A" ∧ l.prayer_request_id = 1 ∧ l.completed_at = none)) ∧
    ((complete ⟨[⟨1, 1, none, none, 1, 1, 0, 10⟩], [⟨"A", 1, 0, none⟩], 3⟩
        1 "A").1 ≠
        .error (.notFound "Prayer not found for this device or already completed") →
      (complete ⟨[⟨1, 1, none, none, 1, 1, 0, 10⟩], [⟨"A", 1, 0, none⟩], 3⟩
          1 "A").1 = .ok () ∧
      (complete (complete ⟨[⟨1, 1, none, none, 1, 1, 0, 10⟩],
          [⟨"A", 1, 0, none⟩], 3⟩ 1 "A").2 1 "A").1 =
        .error (.notFound "Prayer not found for this device or already completed")) ∧
    (∀ op : Op, ∀ l ∈ (⟨[⟨1, 1, none, none, 1, 1, 0, 10⟩], [⟨"A", 1, 0, none⟩],
        3⟩ : Store).device_prayers, l.completed_at ≠ none →
      l ∈ (applyOp ⟨[⟨1, 1, none, none, 1, 1, 0, 10⟩], [⟨"A", 1, 0, none⟩], 3⟩
          op).device_prayers) :=
  c5_complete_contract ⟨[⟨1, 1, none, none, 1, 1, 0, 10⟩], [⟨"A", 1, 0, none⟩], 3⟩
    1 "A" (by decide)

/-! ### C3: join is idempotent per (device, request) pair -/

/-- A join whose three queries all find rows takes the already-joined
branch: it returns the row of the plain `SELECT * WHERE id = $1` and leaves
the store untouched. -/
theorem join_already (u : Store) (rid : Nat) (d : String) (hd : d ≠ "")
    (x z : PrayerRequest) (y : DevicePrayer)
    (hx : u.requests.find? (activeWithId u.now rid) = some x)
    (hy : u.device_prayers.find?
      (fun l => l.device_id == d && l.prayer_request_id == rid) = some y)
    (hz : u.requests.find? (fun r => r.id == rid) = some z) :
    join u rid d = (.ok z, u) := by
  simp [join, hd, hx, hy, hz]

/-- C3: a second join with the same (request_id, device_id) right after a
successful join is a no-op, not an error: it returns exactly the same
successful response and leaves the store exactly as the first join left it
(in particular `prayer_count`, `active_prayers` and the `device_prayers`
table are unchanged). -/
theorem c3_join_idempotent {s : Store} {rid : Nat} {d : String}
    {q : PrayerRequest} {s' : Store}
    (h : join s rid d = (.ok q, s')) : join s' rid d = (.ok q, s') := by
  by_cases hd : d = ""
  · simp [join, hd] at h
  · cases hfind : s.requests.find? (activeWithId s.now rid) with
    | none => simp [join, hd, hfind] at h
    | some r₀ =>
      cases hlink : s.device_prayers.find?
          (fun l => l.device_id == d && l.prayer_request_id == rid) with
      | some l₀ =>
        cases hq : s.requests.find? (fun r => r.id == rid) with
        | none => simp [join, hd, hfind, hlink, hq] at h
        | some q₀ =>
          have hh : q₀ = q ∧ s = s' := by
            simpa [join, hd, hfind, hlink, hq, Prod.ext_iff] using h
          obtain ⟨rfl, rfl⟩ := hh
          simp [join, hd, hfind, hlink, hq]
      | none =>
        cases hm : (s.requests.filter (fun r => r.id == rid)).map
            (fun r => { r with prayer_count := r.prayer_count + 1 }) with
        | nil => simp [join, hd, hfind, hlink, hm] at h
        | cons q₁ t =>
          have hh : q₁ = q ∧
              ({ s with
                 requests := s.requests.map fun r =>
                   if r.id == rid then
                     { r with prayer_count := r.prayer_count + 1 } else r,
                 device_prayers := s.device_prayers ++
                   [{ device_id := d, prayer_request_id := rid,
                      joined_at := s.now, completed_at := none }] } : Store) =
                s' := by
            simpa [join, hd, hfind, hlink, hm, Prod.ext_iff] using h
          obtain ⟨rfl, rfl⟩ := hh
          obtain ⟨r₁, t₁, hft⟩ : ∃ a b,
              s.requests.filter (fun r => r.id == rid) = a :: b := by
            cases hc : s.requests.filter (fun r => r.id == rid) with
            | nil => rw [hc] at hm; simp at hm
            | cons a b => exact ⟨a, b, rfl⟩
          have hr₁ : (r₁.id == rid) = true := by
            have hmem : r₁ ∈ s.requests.filter (fun r => r.id == rid) := by
              rw [hft]; exact List.mem_cons_self _ _
            exact (List.mem_filter.mp hmem).2
          rw [hft] at hm
          simp only [List.map_cons, List.cons.injEq] at hm
          obtain ⟨hfq, -⟩ := hm
          have hpres1 : ∀ r : PrayerRequest,
              activeWithId s.now rid
                (if r.id == rid then
                  { r with prayer_count := r.prayer_count + 1 } else r) =
              activeWithId s.now rid r := by
            intro r
            by_cases hp : (r.id == rid) = true <;> simp [hp, activeWithId]
          have hpres2 : ∀ r : PrayerRequest,
              ((if r.id == rid then
                  { r with prayer_count := r.prayer_count + 1 } else r).id == rid) =
              (r.id == rid) := by
            intro r
            by_cases hp : (r.id == rid) = true <;> simp [hp]
          have h1 : (s.requests.map fun r =>
              if r.id == rid then
                { r with prayer_count := r.prayer_count + 1 } else r).find?
                (activeWithId s.now rid) =
              some (if r₀.id == rid then
                { r₀ with prayer_count := r₀.prayer_count + 1 } else r₀) := by
            rw [map_find?_comm _ _ hpres1, hfind]; rfl
          have h2 : ((s.device_prayers ++
              [({ device_id := d, prayer_request_id := rid,
                  joined_at := s.now, completed_at := none } : DevicePrayer)]).find?
                (fun l => l.device_id == d && l.prayer_request_id == rid)) =
              some ({ device_id := d, prayer_request_id := rid,
                      joined_at := s.now, completed_at := none } : DevicePrayer) := by
            rw [List.find?_append, hlink]; simp
          have hr₁' : r₁.id = rid := by simpa using hr₁
          have h3 : (s.requests.map fun r =>
              if r.id == rid then
                { r with prayer_count := r.prayer_count + 1 } else r).find?
                (fun r => r.id == rid) = some q₁ := by
            rw [map_find?_comm _ _ hpres2, find?_eq_head?_filter, hft]
            simp [hr₁', ← hfq]
          exact join_already _ rid d hd _ _ _ h1 h2 h3

/-- Witness for `c3_join_idempotent`: the result of a concrete first join is
a fixed point of a second join. -/
theorem c3_join_idempotent_witness :
    join ⟨[⟨1, 1, none, none, 1, 0, 0, 10⟩], [⟨"A", 1, 0, none⟩], 0⟩ 1 "A" =
      (.ok ⟨1, 1, none, none, 1, 0, 0, 10⟩,
       ⟨[⟨1, 1, none, none, 1, 0, 0, 10⟩], [⟨"A", 1, 0, none⟩], 0⟩) :=
  c3_join_idempotent
    (show join ⟨[⟨1, 1, none, none, 0, 0, 0, 10⟩], [], 0⟩ 1 "A" =
      (.ok ⟨1, 1, none, none, 1, 0, 0, 10⟩,
       ⟨[⟨1, 1, none, none, 1, 0, 0, 10⟩], [⟨"A", 1, 0, none⟩], 0⟩) from rfl)

/-! ### C4: the statistics aggregate -/

/-- C4: evaluation of the stats query at a store with one non-expired
request (`prayer_count = 1`, `active_prayers = 0`) and two links for it.
The `LEFT JOIN device_prayers` duplicates the request row once per link
before the `SUM`s run, so the code reports `total_prayers = 2` where the
spec's per-request sums give 1: the fan-out inflates both sums whenever a
request has more than one link. -/
theorem c4_stats_fanout :
    getStats ⟨[⟨1, 1, none, none, 1, 0, 0, 10⟩],
      [⟨"A", 1, 0, none⟩, ⟨"B", 1, 0, none⟩], 0⟩ = (2, 0, 0) ∧
    specStats ⟨[⟨1, 1, none, none, 1, 0, 0, 10⟩],
      [⟨"A", 1, 0, none⟩, ⟨"B", 1, 0, none⟩], 0⟩ = (1, 0, 0) :=
  ⟨rfl, rfl⟩

/-! ### C9: the HTTP layer's handling of storage failures -/

/-- A response body the gateway can send: either an error payload
`{ error: msg }` or one of the typed success payloads. -/
inductive RespBody where
  | errorBody (msg : String)
  | statsBody (total_prayers active_prayers : Int) (completed_prayers : Nat)
  | requestBody (q : PrayerRequest)
  | messageBody (msg : String)
  | requestListBody (qs : List PrayerRequest)
  deriving Repr, DecidableEq

/-- An HTTP response: status code and JSON body. -/
structure HttpResponse where
  status : Nat
  body : RespBody
  deriving Repr, DecidableEq

/-- Gateway translation of a store error (`res.status(400/404).json({error})`). -/
def errorResponse : ApiError → HttpResponse
  | .validation m => ⟨400, .errorBody m⟩
  | .notFound m => ⟨404, .errorBody m⟩

/-- POST `/api/prayer-requests/:id/join` at the HTTP layer.  `qfail` models
the pool query throwing inside the `try` block (the validation check sits
before it); the `catch` answers `500 { error: 'Internal server error' }`. -/
def joinEndpoint (qfail : Bool) (s : Store) (rid : Nat) (d : String) :
    HttpResponse × Store :=
  if d = "" then (⟨400, .errorBody "Device ID is required"⟩, s)
  else if qfail then (⟨500, .errorBody "Internal server error"⟩, s)
  else
    match join s rid d with
    | (.ok q, s') => (⟨200, .requestBody q⟩, s')
    | (.error e, s') => (errorResponse e, s')

/-- POST `/api/prayer-requests/:id/start-praying` at the HTTP layer. -/
def startPrayingEndpoint (qfail : Bool) (s : Store) (rid : Nat) (d : String) :
    HttpResponse × Store :=
  if d = "" then (⟨400, .errorBody "Device ID is required"⟩, s)
  else if qfail then (⟨500, .errorBody "Internal server error"⟩, s)
  else
    match startPraying s rid d with
    | (.ok q, s') => (⟨200, .requestBody q⟩, s')
    | (.error e, s') => (errorResponse e, s')

/-- POST `/api/prayer-requests/:id/stop-praying` at the HTTP layer. -/
def stopPrayingEndpoint (qfail : Bool) (s : Store) (rid : Nat) (d : String) :
    HttpResponse × Store :=
  if d = "" then (⟨400, .errorBody "Device ID is required"⟩, s)
  else if qfail then (⟨500, .errorBody "Internal server error"⟩, s)
  else
    match stopPraying s rid d with
    | (.ok q, s') => (⟨200, .requestBody q⟩, s')
    | (.error e, s') => (errorResponse e, s')

/-- POST `/api/prayer-requests/:id/pray` (legacy) at the HTTP layer. -/
def prayEndpoint (qfail : Bool) (s : Store) (rid : Nat) :
    HttpResponse × Store :=
  if qfail then (⟨500, .errorBody "Internal server error"⟩, s)
  else
    match pray s rid with
    | (.ok q, s') => (⟨200, .requestBody q⟩, s')
    | (.error e, s') => (errorResponse e, s')

/-- POST `/api/prayer-requests/:id/complete` at the HTTP layer. -/
def completeEndpoint (qfail : Bool) (s : Store) (rid : Nat) (d : String) :
    HttpResponse × Store :=
  if d = "" then (⟨400, .errorBody "Device ID is required"⟩, s)
  else if qfail then (⟨500, .errorBody "Internal server error"⟩, s)
  else
    match complete s rid d with
    | (.ok _, s') => (⟨200, .messageBody "Prayer completed successfully"⟩, s')
    | (.error e, s') => (errorResponse e, s')

/-- GET `/api/prayer-requests` at the HTTP layer (reads the non-expired
requests; its `catch` answers the generic error payload). -/
def listRequestsEndpoint (qfail : Bool) (s : Store) : HttpResponse :=
  if qfail then ⟨500, .errorBody "Internal server error"⟩
  else ⟨200, .requestListBody
    (s.requests.filter fun r => decide (s.now < r.expires_at))⟩

/-- GET `/api/stats` at the HTTP layer (server.js lines 536-557): on success
the aggregate row; when the query throws, the `catch` block answers
`res.status(500).json({ total_prayers: 0, active_prayers: 0,
completed_prayers: 0 })` — status 500 with a zero-valued report body rather
than an error payload. -/
def statsEndpoint (qfail : Bool) (s : Store) : HttpResponse :=
  if qfail then ⟨500, .statsBody 0 0 0⟩
  else ⟨200, .statsBody (getStats s).1 (getStats s).2.1 (getStats s).2.2⟩

/-- C9 (amended): on a storage failure the statistics endpoint answers with
a zero-valued report body — total_prayers, active_prayers and
completed_prayers all 0 — and it is the only modelled operation whose
failure body is a well-formed report instead of the error payload; however
the failure is still propagated as an error to the caller: the response
carries the same HTTP 500 server-error status every other endpoint's
failure carries. -/
theorem c9_stats_failure_substitution (s : Store) (rid : Nat) (d : String)
    (hd : d ≠ "") :
    statsEndpoint true s = ⟨500, .statsBody 0 0 0⟩ ∧
    (joinEndpoint true s rid d).1 = ⟨500, .errorBody "Internal server error"⟩ ∧
    (startPrayingEndpoint true s rid d).1 =
      ⟨500, .errorBody "Internal server error"⟩ ∧
    (stopPrayingEndpoint true s rid d).1 =
      ⟨500, .errorBody "Internal server error"⟩ ∧
    (prayEndpoint true s rid).1 = ⟨500, .errorBody "Internal server error"⟩ ∧
    (completeEndpoint true s rid d).1 =
      ⟨500, .errorBody "Internal server error"⟩ ∧
    listRequestsEndpoint true s = ⟨500, .errorBody "Internal server error"⟩ := by
  refine ⟨rfl, ?_, ?_, ?_, rfl, ?_, rfl⟩ <;>
    simp [joinEndpoint, startPrayingEndpoint, stopPrayingEndpoint,
      completeEndpoint, hd]

/-- Witness for `c9_stats_failure_substitution` at concrete inputs. -/
theorem c9_stats_failure_substitution_witness :
    statsEndpoint true ⟨[], [], 0⟩ = ⟨500, .statsBody 0 0 0⟩ ∧
    (joinEndpoint true ⟨[], [], 0⟩ 1 "A").1 =
      ⟨500, .errorBody "Internal server error"⟩ ∧
    (startPrayingEndpoint true ⟨[], [], 0⟩ 1 "A").1 =
      ⟨500, .errorBody "Internal server error"⟩ ∧
    (stopPrayingEndpoint true ⟨[], [], 0⟩ 1 "A").1 =
      ⟨500, .errorBody "Internal server error"⟩ ∧
    (prayEndpoint true ⟨[], [], 0⟩ 1).1 =
      ⟨500, .errorBody "Internal server error"⟩ ∧
    (completeEndpoint true ⟨[], [], 0⟩ 1 "A").1 =
      ⟨500, .errorBody "Internal server error"⟩ ∧
    listRequestsEndpoint true ⟨[], [], 0⟩ =
      ⟨500, .errorBody "Internal server error"⟩ :=
  c9_stats_failure_substitution ⟨[], [], 0⟩ 1 "A" (by decide)

/-- C9 counterexample: the claim says a storage failure of the statistics
read is not propagated to the caller as an error, but the handler answers
HTTP status 500 — the same server-error status the join handler's failure
produces — merely with a zero report as the body. -/
theorem c9_stats_failure_is_500 :
    (statsEndpoint true ⟨[], [], 0⟩).status = 500 ∧
    (statsEndpoint true ⟨[], [], 0⟩).status =
      (joinEndpoint true ⟨[], [], 0⟩ 1 "A").1.status ∧
    statsEndpoint true ⟨[], [], 0⟩ = ⟨500, .statsBody 0 0 0⟩ :=
  ⟨rfl, rfl, rfl⟩

/-! ### C8: the topic catalog query -/

/-- Row of the `prayer_topics` table (`CREATE TABLE prayer_topics`,
server.js lines 68-74). -/
structure Topic where
  id : Nat
  title : String
  category : String
  parent_id : Option Nat
  deriving Repr, DecidableEq

/-- A row of the GET `/api/prayer-topics` query (server.js lines 252-265):
`SELECT pt.id, pt.title, pt.category, pt.parent_id, CASE WHEN pt.parent_id
IS NULL THEN pt.title ELSE p.title END AS main_category FROM prayer_topics
pt LEFT JOIN prayer_topics p ON pt.parent_id = p.id` (the unused `category`
column is dropped; `main_category` is NULL when the parent id resolves to
no topic). -/
structure TopicRow where
  id : Nat
  title : String
  parent_id : Option Nat
  main_category : Option String
  deriving Repr, DecidableEq

/-- The query row for one topic; the LEFT JOIN's lookup of the parent is a
`find?` (the primary key makes at most one parent row match). -/
def topicRow (ts : List Topic) (t : Topic) : TopicRow :=
  { id := t.id, title := t.title, parent_id := t.parent_id,
    main_category :=
      match t.parent_id with
      | none => some t.title
      | some p => (ts.find? (fun u => u.id == p)).map Topic.title }

/-- The `ORDER BY` key of the query: `CASE WHEN pt.parent_id IS NULL THEN
pt.id ELSE pt.parent_id END` ascending, then `pt.parent_id IS NULL DESC`
(main rows before their subcategories), then `pt.id` ascending. -/
def rowKey (r : TopicRow) : Nat × Nat × Nat :=
  (r.parent_id.getD r.id,
   (match r.parent_id with | none => 0 | some _ => 1),
   r.id)

/-- Lexicographic order on the three-part sort key. -/
def keyLe (x y : Nat × Nat × Nat) : Prop :=
  x.1 < y.1 ∨
    (x.1 = y.1 ∧ (x.2.1 < y.2.1 ∨ (x.2.1 = y.2.1 ∧ x.2.2 ≤ y.2.2)))

instance keyLe.instDecidable : DecidableRel keyLe := by
  unfold keyLe; intro x y; infer_instance

theorem keyLe_total (x y : Nat × Nat × Nat) : keyLe x y ∨ keyLe y x := by
  unfold keyLe; omega

theorem keyLe_trans {x y z : Nat × Nat × Nat} (h1 : keyLe x y)
    (h2 : keyLe y z) : keyLe x z := by
  unfold keyLe at *; omega

theorem keyLe_antisymm {x y : Nat × Nat × Nat} (h1 : keyLe x y)
    (h2 : keyLe y x) : x = y := by
  obtain ⟨a, b, c⟩ := x
  obtain ⟨d, e, f⟩ := y
  simp only [keyLe] at h1 h2
  simp only [Prod.mk.injEq]
  omega

/-- The row order the query's `ORDER BY` induces. -/
def rowRel (a b : TopicRow) : Prop := keyLe (rowKey a) (rowKey b)

instance rowRel.instDecidable : DecidableRel rowRel := by
  unfold rowRel; intro a b; infer_instance

instance rowRel.instIsTotal : IsTotal TopicRow rowRel :=
  ⟨fun _ _ => keyLe_total _ _⟩

instance rowRel.instIsTrans : IsTrans TopicRow rowRel :=
  ⟨fun _ _ _ => keyLe_trans⟩

/-- A subcategory entry of the response. -/
structure SubCat where
  id : Nat
  title : String
  deriving Repr, DecidableEq

/-- One group `{ id, title, subcategories }` of the response; `title` is
the (nullable) `main_category` the JS object is keyed by. -/
structure TopicGroup where
  id : Nat
  title : Option String
  subcategories : List SubCat
  deriving Repr, DecidableEq

/-- First half of the JS grouping-loop body (server.js lines 270-277):
`if (!categorized[mainCat]) categorized[mainCat] = { id: topic.parent_id ||
topic.id, title: mainCat, subcategories: [] }` — the insertion-ordered map
is modelled by the list's order. -/
def ensureGroup (acc : List TopicGroup) (row : TopicRow) : List TopicGroup :=
  if acc.any (fun g => g.title == row.main_category) then acc
  else acc ++ [{ id := row.parent_id.getD row.id,
                 title := row.main_category, subcategories := [] }]

/-- Second half of the loop body (server.js lines 279-284): `if
(topic.parent_id) categorized[mainCat].subcategories.push({ id, title })`. -/
def pushSub (acc : List TopicGroup) (row : TopicRow) : List TopicGroup :=
  match row.parent_id with
  | some _ =>
    acc.map fun g =>
      if g.title == row.main_category then
        { g with subcategories :=
            g.subcategories ++ [{ id := row.id, title := row.title }] }
      else g
  | none => acc

/-- One step of the JS grouping loop (server.js lines 268-285): make sure
the row's `main_category` group exists, then push the subcategory entry. -/
def addRow (acc : List TopicGroup) (row : TopicRow) : List TopicGroup :=
  pushSub (ensureGroup acc row) row

/-- GET `/api/prayer-topics`: run the ordered query and fold the grouping
loop over its rows. -/
def getPrayerTopics (ts : List Topic) : List TopicGroup :=
  (List.insertionSort rowRel (ts.map (topicRow ts))).foldl addRow []

/-- `pt.parent_id IS NULL`: the topic is a main category. -/
def isMainT (t : Topic) : Bool := t.parent_id.isNone

/-- The topic is a subcategory of `m`. -/
def subOf (m t : Topic) : Bool := t.parent_id == some m.id

/-- Topics by ascending id. -/
def idLeT (a b : Topic) : Prop := a.id ≤ b.id

instance idLeT.instDecidable : DecidableRel idLeT := by
  unfold idLeT; intro a b; infer_instance

instance idLeT.instIsTotal : IsTotal Topic idLeT :=
  ⟨fun a b => Nat.le_total a.id b.id⟩

instance idLeT.instIsTrans : IsTrans Topic idLeT :=
  ⟨fun _ _ _ => Nat.le_trans⟩

/-- The main categories in ascending id order. -/
def mainsSorted (ts : List Topic) : List Topic :=
  List.insertionSort idLeT (ts.filter isMainT)

/-- The subcategories of `m` in ascending id order. -/
def subsSorted (ts : List Topic) (m : Topic) : List Topic :=
  List.insertionSort idLeT (ts.filter (subOf m))

/-- The grouping the spec describes: one group per main category, in
ascending id order, with its subcategories nested (a second definition
following the spec's words, to be compared with `getPrayerTopics`). -/
def expectedGroups (ts : List Topic) : List TopicGroup :=
  (mainsSorted ts).map fun m =>
    { id := m.id, title := some m.title,
      subcategories := (subsSorted ts m).map fun t =>
        { id := t.id, title := t.title } }

/-- The query row of a main category. -/
def mainRowOf (m : Topic) : TopicRow :=
  { id := m.id, title := m.title, parent_id := none,
    main_category := some m.title }

/-- The query row of a subcategory of `m`. -/
def subRowOf (m t : Topic) : TopicRow :=
  { id := t.id, title := t.title, parent_id := some m.id,
    main_category := some m.title }

/-- The rows of one main category's block in query order: the main row,
then its subcategories by ascending id. -/
def blockRows (ts : List Topic) (m : Topic) : List TopicRow :=
  mainRowOf m :: (subsSorted ts m).map (subRowOf m)

/-- All query rows in query order: the blocks of the main categories by
ascending id. -/
def canonicalRows (ts : List Topic) : List TopicRow :=
  ((mainsSorted ts).map (blockRows ts)).flatten

theorem find?_id_of_nodup (ts : List Topic) (hid : (ts.map Topic.id).Nodup)
    {m : Topic} (hm : m ∈ ts) : ts.find? (fun u => u.id == m.id) = some m := by
  induction ts with
  | nil => cases hm
  | cons a t ih =>
    have hid' : (t.map Topic.id).Nodup := (List.nodup_cons.mp hid).2
    rcases List.mem_cons.mp hm with rfl | hmt
    · rw [List.find?_cons_of_pos _ (by simp)]
    · have hane : ¬ (a.id == m.id) = true := by
        intro hh
        have heq : a.id = m.id := by simpa using hh
        have hmem : m.id ∈ t.map Topic.id := List.mem_map_of_mem _ hmt
        exact (List.nodup_cons.mp hid).1 (heq ▸ hmem)
      exact (List.find?_cons_of_neg t hane).trans (ih hid' hmt)

theorem topicRow_main {ts : List Topic} {t : Topic} (h : t.parent_id = none) :
    topicRow ts t = mainRowOf t := by
  simp [topicRow, mainRowOf, h]

theorem topicRow_sub {ts : List Topic} (hid : (ts.map Topic.id).Nodup)
    {m t : Topic} (hm : m ∈ ts) (h : t.parent_id = some m.id) :
    topicRow ts t = subRowOf m t := by
  simp [topicRow, subRowOf, h, find?_id_of_nodup ts hid hm]

theorem rowKey_mainRowOf (m : Topic) : rowKey (mainRowOf m) = (m.id, 0, m.id) :=
  rfl

theorem rowKey_subRowOf (m t : Topic) :
    rowKey (subRowOf m t) = (m.id, 1, t.id) := rfl

/-- Every row of `m`'s block has first key component `m.id`. -/
theorem block_key_fst (ts : List Topic) (m : Topic) :
    ∀ x ∈ blockRows ts m, (rowKey x).1 = m.id := by
  intro x hx
  rcases List.mem_cons.mp hx with rfl | hx'
  · rfl
  · obtain ⟨t, -, rfl⟩ := List.mem_map.mp hx'
    rfl

theorem mainsSorted_perm (ts : List Topic) :
    (mainsSorted ts).Perm (ts.filter isMainT) :=
  List.perm_insertionSort _ _

theorem subsSorted_perm (ts : List Topic) (m : Topic) :
    (subsSorted ts m).Perm (ts.filter (subOf m)) :=
  List.perm_insertionSort _ _

theorem mainsSorted_mem_ts {ts : List Topic} {m : Topic}
    (h : m ∈ mainsSorted ts) : m ∈ ts ∧ m.parent_id = none := by
  have := (mainsSorted_perm ts).subset h
  have h2 := List.mem_filter.mp this
  exact ⟨h2.1, Option.isNone_iff_eq_none.mp h2.2⟩

/-- Ids stay `Nodup` on any filtered sublist. -/
theorem filter_ids_nodup (ts : List Topic) (hid : (ts.map Topic.id).Nodup)
    (p : Topic → Bool) : ((ts.filter p).map Topic.id).Nodup :=
  ((List.filter_sublist ts).map Topic.id).nodup hid

theorem sorted_filter_pairwise_lt (ts : List Topic)
    (hid : (ts.map Topic.id).Nodup) (p : Topic → Bool) :
    (List.insertionSort idLeT (ts.filter p)).Pairwise
      (fun a b => a.id < b.id) := by
  have hs : (List.insertionSort idLeT (ts.filter p)).Pairwise idLeT :=
    List.sorted_insertionSort idLeT (ts.filter p)
  have hn : ((List.insertionSort idLeT (ts.filter p)).map Topic.id).Nodup :=
    (((List.perm_insertionSort idLeT (ts.filter p)).map Topic.id).symm).nodup
      (filter_ids_nodup ts hid p)
  have hne : (List.insertionSort idLeT (ts.filter p)).Pairwise
      (fun a b => a.id ≠ b.id) := List.pairwise_map.mp hn
  exact (hs.and hne).imp fun h => Nat.lt_of_le_of_ne h.1 h.2

theorem mains_pairwise_lt (ts : List Topic)
    (hid : (ts.map Topic.id).Nodup) :
    (mainsSorted ts).Pairwise (fun a b => a.id < b.id) :=
  sorted_filter_pairwise_lt ts hid isMainT

theorem subs_pairwise_lt (ts : List Topic) (hid : (ts.map Topic.id).Nodup)
    (m : Topic) :
    (subsSorted ts m).Pairwise (fun a b => a.id < b.id) :=
  sorted_filter_pairwise_lt ts hid (subOf m)

theorem mains_pairwise_title (ts : List Topic)
    (htit : ((ts.filter isMainT).map Topic.title).Nodup) :
    (mainsSorted ts).Pairwise (fun a b => a.title ≠ b.title) := by
  have h : (ts.filter isMainT).Pairwise (fun a b => a.title ≠ b.title) :=
    List.pairwise_map.mp htit
  exact (List.Perm.pairwise_iff (fun hxy => Ne.symm hxy)
    (mainsSorted_perm ts)).mpr h

/-- The strict version of the row order: `≤` on keys together with key
inequality. -/
def rowLt (a b : TopicRow) : Prop :=
  keyLe (rowKey a) (rowKey b) ∧ rowKey a ≠ rowKey b

/-- Two strictly key-sorted lists that are permutations of each other are
equal (sorted output of the query is unique once the keys are distinct). -/
theorem eq_of_perm_of_pairwise_rowLt :
    ∀ {l₁ l₂ : List TopicRow}, l₁.Perm l₂ →
      l₁.Pairwise rowLt → l₂.Pairwise rowLt → l₁ = l₂ := by
  intro l₁
  induction l₁ with
  | nil =>
    intro l₂ hp _ _
    exact hp.nil_eq
  | cons a t ih =>
    intro l₂ hp h1 h2
    cases l₂ with
    | nil => exact absurd hp (by simp)
    | cons b t₂ =>
      have hab : a = b := by
        by_contra hne
        have ha2 : a ∈ b :: t₂ := hp.subset (List.mem_cons_self a t)
        have hb1 : b ∈ a :: t := hp.symm.subset (List.mem_cons_self b t₂)
        have ha2' : a ∈ t₂ := by
          rcases List.mem_cons.mp ha2 with h | h
          · exact absurd h hne
          · exact h
        have hb1' : b ∈ t := by
          rcases List.mem_cons.mp hb1 with h | h
          · exact absurd h.symm hne
          · exact h
        have hba := (List.pairwise_cons.mp h1).1 b hb1'
        have hab' := (List.pairwise_cons.mp h2).1 a ha2'
        exact hba.2 (keyLe_antisymm hba.1 hab'.1)
      subst hab
      rw [ih hp.cons_inv (List.pairwise_cons.mp h1).2
        (List.pairwise_cons.mp h2).2]

/-- Sorted plus distinct keys gives strict sortedness. -/
theorem pairwise_rowLt_of_sorted {l : List TopicRow}
    (hs : List.Sorted rowRel l) (hn : (l.map rowKey).Nodup) :
    l.Pairwise rowLt := by
  have hne : l.Pairwise (fun a b => rowKey a ≠ rowKey b) :=
    List.pairwise_map.mp hn
  exact (hs.and hne).imp fun h => ⟨h.1, h.2⟩

/-- The keys of the query rows are distinct when the topic ids are. -/
theorem rows_keys_nodup (ts : List Topic) (hid : (ts.map Topic.id).Nodup) :
    ((ts.map (topicRow ts)).map rowKey).Nodup := by
  rw [List.map_map]
  refine List.pairwise_map.mpr ?_
  have h : ts.Pairwise (fun a b => a.id ≠ b.id) := List.pairwise_map.mp hid
  refine h.imp ?_
  intro a b hne hkey
  exact hne (congrArg (fun k : Nat × Nat × Nat => k.2.2) hkey)

/-- The canonical block list is strictly sorted by the query's key. -/
theorem canonical_pairwise_rowLt (ts : List Topic)
    (hid : (ts.map Topic.id).Nodup) :
    (canonicalRows ts).Pairwise rowLt := by
  unfold canonicalRows
  rw [List.pairwise_flatten]
  constructor
  · intro l hl
    obtain ⟨m, hm, rfl⟩ := List.mem_map.mp hl
    unfold blockRows
    rw [List.pairwise_cons]
    constructor
    · intro x hx
      obtain ⟨t, ht, rfl⟩ := List.mem_map.mp hx
      refine ⟨?_, ?_⟩
      · rw [rowKey_mainRowOf, rowKey_subRowOf]
        exact Or.inr ⟨rfl, Or.inl Nat.zero_lt_one⟩
      · rw [rowKey_mainRowOf, rowKey_subRowOf]
        intro hh
        simp at hh
    · refine List.pairwise_map.mpr ?_
      refine (subs_pairwise_lt ts hid m).imp ?_
      intro x y hxy
      refine ⟨?_, ?_⟩
      · rw [rowKey_subRowOf, rowKey_subRowOf]
        exact Or.inr ⟨rfl, Or.inr ⟨rfl, Nat.le_of_lt hxy⟩⟩
      · rw [rowKey_subRowOf, rowKey_subRowOf]
        intro hh
        simp at hh
        omega
  · refine List.pairwise_map.mpr ?_
    refine (mains_pairwise_lt ts hid).imp ?_
    intro m₁ m₂ hlt x hx y hy
    have hx1 := block_key_fst ts m₁ x hx
    have hy1 := block_key_fst ts m₂ y hy
    refine ⟨?_, ?_⟩
    · exact Or.inl (by rw [hx1, hy1]; exact hlt)
    · intro hh
      rw [hh] at hx1
      rw [hx1] at hy1
      omega

/-- Pointwise permutation congruence for flattened maps. -/
theorem flatten_map_perm_congr {β : Type} (ms : List Topic)
    (F G : Topic → List β) (h : ∀ m ∈ ms, (F m).Perm (G m)) :
    ((ms.map F).flatten).Perm ((ms.map G).flatten) := by
  induction ms with
  | nil => rfl
  | cons m t ih =>
    simp only [List.map_cons, List.flatten_cons]
    exact (h m (List.mem_cons_self _ _)).append
      (ih fun m' hm' => h m' (List.mem_cons_of_mem _ hm'))

/-- Flattening blocks of the shape `head :: tail` splits into the heads
followed by the flattened tails, up to permutation. -/
theorem flatten_cons_perm {β : Type} (ms : List Topic) (g : Topic → β)
    (h : Topic → List β) :
    ((ms.map fun m => g m :: h m).flatten).Perm
      (ms.map g ++ (ms.map h).flatten) := by
  induction ms with
  | nil => rfl
  | cons m t ih =>
    simp only [List.map_cons, List.flatten_cons, List.cons_append]
    refine List.Perm.cons _ ?_
    exact (List.Perm.append_left (h m) ih).trans
      (List.perm_append_comm_assoc _ _ _)

/-- Partition of a list of subcategories into the per-main filters. -/
theorem flatten_filter_perm :
    ∀ (ms : List Topic) (l : List Topic), (ms.map Topic.id).Nodup →
      (∀ t ∈ l, ∃ m ∈ ms, t.parent_id = some m.id) →
      ((ms.map fun m => l.filter (subOf m)).flatten).Perm l := by
  intro ms
  induction ms with
  | nil =>
    intro l _ hcov
    have : l = [] := by
      rw [List.eq_nil_iff_forall_not_mem]
      intro t ht
      obtain ⟨m, hm, -⟩ := hcov t ht
      cases hm
    rw [this]; rfl
  | cons m ms ih =>
    intro l hN hcov
    simp only [List.map_cons, List.flatten_cons]
    have hmid : m.id ∉ ms.map Topic.id := (List.nodup_cons.mp hN).1
    have hstep : ∀ m' ∈ ms, l.filter (subOf m') =
        (l.filter fun t => !(subOf m t)).filter (subOf m') := by
      intro m' hm'
      rw [List.filter_filter]
      refine (List.filter_congr ?_).symm
      intro t _
      by_cases hsub : (subOf m' t) = true
      · have hne : subOf m t = false := by
          rw [Bool.eq_false_iff]
          intro hmt
          have h1 : t.parent_id = some m'.id := by
            simpa [subOf] using hsub
          have h2 : t.parent_id = some m.id := by
            simpa [subOf] using hmt
          have hmm : m'.id = m.id := by rw [h1] at h2; simpa using h2
          exact hmid (hmm ▸ List.mem_map_of_mem _ hm')
        simp [hsub, hne]
      · have hsub' : subOf m' t = false := by
          rw [Bool.eq_false_iff]; exact hsub
        simp [hsub']
    have hmapeq : (ms.map fun m' => l.filter (subOf m')) =
        ms.map fun m' => (l.filter fun t => !(subOf m t)).filter (subOf m') :=
      List.map_congr_left hstep
    rw [hmapeq]
    have hcov' : ∀ t ∈ l.filter fun t => !(subOf m t),
        ∃ m' ∈ ms, t.parent_id = some m'.id := by
      intro t ht
      have ht1 := (List.mem_filter.mp ht).1
      have ht2 := (List.mem_filter.mp ht).2
      obtain ⟨m₀, hm₀, hp₀⟩ := hcov t ht1
      rcases List.mem_cons.mp hm₀ with rfl | hm₀'
      · exfalso
        have : subOf m₀ t = true := by simp [subOf, hp₀]
        rw [this] at ht2
        cases ht2
      · exact ⟨m₀, hm₀', hp₀⟩
    have hperm := ih (l.filter fun t => !(subOf m t))
      (List.nodup_cons.mp hN).2 hcov'
    exact (List.Perm.append_left _ hperm).trans
      (List.filter_append_perm (subOf m) l)

theorem mains_ids_nodup (ts : List Topic) (hid : (ts.map Topic.id).Nodup) :
    ((mainsSorted ts).map Topic.id).Nodup :=
  ((mainsSorted_perm ts).map Topic.id).symm.nodup
    (filter_ids_nodup ts hid isMainT)

/-- The canonical block list is a permutation of the raw query rows. -/
theorem canonical_perm (ts : List Topic)
    (hid : (ts.map Topic.id).Nodup)
    (hpar : ∀ t ∈ ts, ∀ p, t.parent_id = some p →
      ∃ m ∈ ts, m.id = p ∧ m.parent_id = none) :
    (canonicalRows ts).Perm (ts.map (topicRow ts)) := by
  have h1 : (canonicalRows ts).Perm
      ((mainsSorted ts).map mainRowOf ++
        ((mainsSorted ts).map fun m =>
          (subsSorted ts m).map (subRowOf m)).flatten) :=
    flatten_cons_perm (mainsSorted ts) mainRowOf _
  have hmains : ((mainsSorted ts).map mainRowOf).Perm
      ((ts.filter isMainT).map (topicRow ts)) := by
    have hp := (mainsSorted_perm ts).map mainRowOf
    have heq : (ts.filter isMainT).map mainRowOf =
        (ts.filter isMainT).map (topicRow ts) := by
      apply List.map_congr_left
      intro t ht
      have hmem := (List.mem_filter.mp ht).2
      exact (topicRow_main (Option.isNone_iff_eq_none.mp hmem)).symm
    exact hp.trans (by rw [heq])
  have hsubs : (((mainsSorted ts).map fun m =>
      (subsSorted ts m).map (subRowOf m)).flatten).Perm
      ((ts.filter fun t => !(isMainT t)).map (topicRow ts)) := by
    have hper : ∀ m ∈ mainsSorted ts,
        ((subsSorted ts m).map (subRowOf m)).Perm
          ((ts.filter (subOf m)).map (topicRow ts)) := by
      intro m hm
      have hps := (subsSorted_perm ts m).map (subRowOf m)
      have heq : (ts.filter (subOf m)).map (subRowOf m) =
          (ts.filter (subOf m)).map (topicRow ts) := by
        apply List.map_congr_left
        intro t ht
        have hsub := (List.mem_filter.mp ht).2
        have hpt : t.parent_id = some m.id := by simpa [subOf] using hsub
        exact (topicRow_sub hid (mainsSorted_mem_ts hm).1 hpt).symm
      exact hps.trans (by rw [heq])
    have h2 := flatten_map_perm_congr (mainsSorted ts) _ _ hper
    have h3 : ((mainsSorted ts).map fun m =>
        (ts.filter (subOf m)).map (topicRow ts)).flatten =
        (((mainsSorted ts).map fun m => ts.filter (subOf m)).flatten).map
          (topicRow ts) := by
      rw [List.map_flatten, List.map_map]
      rfl
    have h4 : ∀ m ∈ mainsSorted ts, ts.filter (subOf m) =
        (ts.filter fun t => !(isMainT t)).filter (subOf m) := by
      intro m _
      rw [List.filter_filter]
      refine (List.filter_congr ?_).symm
      intro t _
      by_cases hs : subOf m t = true
      · have hmain : isMainT t = false := by
          have hpt : t.parent_id = some m.id := by simpa [subOf] using hs
          simp [isMainT, hpt]
        simp [hs, hmain]
      · have hs' : subOf m t = false := Bool.eq_false_iff.mpr hs
        simp [hs']
    have h5 : ((mainsSorted ts).map fun m => ts.filter (subOf m)) =
        (mainsSorted ts).map fun m =>
          (ts.filter fun t => !(isMainT t)).filter (subOf m) :=
      List.map_congr_left h4
    have hcov : ∀ t ∈ ts.filter fun t => !(isMainT t),
        ∃ m ∈ mainsSorted ts, t.parent_id = some m.id := by
      intro t ht
      have ht1 := (List.mem_filter.mp ht).1
      have ht2 := (List.mem_filter.mp ht).2
      cases hp : t.parent_id with
      | none =>
        exfalso
        simp [isMainT, hp] at ht2
      | some p =>
        obtain ⟨m, hm, hmid, hmnone⟩ := hpar t ht1 p hp
        refine ⟨m, ?_, by rw [hmid]⟩
        have hmf : m ∈ ts.filter isMainT :=
          List.mem_filter.mpr ⟨hm, by simp [isMainT, hmnone]⟩
        exact (mainsSorted_perm ts).mem_iff.mpr hmf
    have h6 := flatten_filter_perm (mainsSorted ts)
      (ts.filter fun t => !(isMainT t)) (mains_ids_nodup ts hid) hcov
    refine h2.trans ?_
    rw [h3, h5]
    exact h6.map (topicRow ts)
  have hall : (canonicalRows ts).Perm
      ((ts.filter isMainT).map (topicRow ts) ++
        (ts.filter fun t => !(isMainT t)).map (topicRow ts)) :=
    h1.trans (hmains.append hsubs)
  have hfin : ((ts.filter isMainT).map (topicRow ts) ++
      (ts.filter fun t => !(isMainT t)).map (topicRow ts)).Perm
      (ts.map (topicRow ts)) := by
    rw [← List.map_append]
    exact (List.filter_append_perm isMainT ts).map (topicRow ts)
  exact hall.trans hfin

/-- The query's sorted output is exactly the canonical block list. -/
theorem rows_eq (ts : List Topic) (hid : (ts.map Topic.id).Nodup)
    (hpar : ∀ t ∈ ts, ∀ p, t.parent_id = some p →
      ∃ m ∈ ts, m.id = p ∧ m.parent_id = none) :
    List.insertionSort rowRel (ts.map (topicRow ts)) = canonicalRows ts := by
  have hperm : (List.insertionSort rowRel (ts.map (topicRow ts))).Perm
      (canonicalRows ts) :=
    (List.perm_insertionSort _ _).trans (canonical_perm ts hid hpar).symm
  have hs1 : (List.insertionSort rowRel (ts.map (topicRow ts))).Pairwise
      rowLt :=
    pairwise_rowLt_of_sorted (List.sorted_insertionSort _ _)
      (((List.perm_insertionSort rowRel _).map rowKey).symm.nodup
        (rows_keys_nodup ts hid))
  exact eq_of_perm_of_pairwise_rowLt hperm hs1
    (canonical_pairwise_rowLt ts hid)

theorem ensureGroup_present (acc : List TopicGroup) (row : TopicRow)
    (hany : acc.any (fun g => g.title == row.main_category) = true) :
    ensureGroup acc row = acc := by
  unfold ensureGroup
  rw [if_pos hany]

theorem ensureGroup_absent (acc : List TopicGroup) (row : TopicRow)
    (hany : acc.any (fun g => g.title == row.main_category) = false) :
    ensureGroup acc row =
      acc ++ [{ id := row.parent_id.getD row.id,
                title := row.main_category, subcategories := [] }] := by
  unfold ensureGroup
  rw [if_neg (by simp [hany])]

theorem pushSub_none (acc : List TopicGroup) (row : TopicRow)
    (hrow : row.parent_id = none) : pushSub acc row = acc := by
  unfold pushSub
  rw [hrow]

theorem pushSub_some (acc : List TopicGroup) (row : TopicRow) (p : Nat)
    (hrow : row.parent_id = some p) :
    pushSub acc row = acc.map fun g =>
      if g.title == row.main_category then
        { g with subcategories :=
            g.subcategories ++ [{ id := row.id, title := row.title }] }
      else g := by
  unfold pushSub
  rw [hrow]

/-- Folding the subcategory rows of one block onto an accumulator whose
last group is the block's main category (and no earlier group shares its
title) appends exactly the subcategory entries, in order. -/
theorem foldl_subrows (m : Topic) :
    ∀ (subs : List Topic) (done : List TopicGroup) (gs : List SubCat),
      (∀ g ∈ done, g.title ≠ some m.title) →
      (subs.map (subRowOf m)).foldl addRow
        (done ++ [{ id := m.id, title := some m.title, subcategories := gs }]) =
      done ++ [{ id := m.id, title := some m.title,
                 subcategories := gs ++ subs.map fun t =>
                   { id := t.id, title := t.title } }] := by
  intro subs
  induction subs with
  | nil =>
    intro done gs _
    simp
  | cons t subs ih =>
    intro done gs hdone
    simp only [List.map_cons, List.foldl_cons]
    have hany :
        (done ++ [({ id := m.id, title := some m.title, subcategories := gs } : TopicGroup)]).any
          (fun g => g.title == (subRowOf m t).main_category) = true := by
      rw [List.any_append]
      have hx : ((({ id := m.id, title := some m.title, subcategories := gs } : TopicGroup)).title ==
          (subRowOf m t).main_category) = true := by
        simp [subRowOf]
      simp [hx]
    have hstep :
        addRow (done ++ [({ id := m.id, title := some m.title, subcategories := gs } : TopicGroup)])
            (subRowOf m t) =
          done ++ [({ id := m.id, title := some m.title,
                      subcategories := gs ++ [({ id := t.id, title := t.title } : SubCat)] } : TopicGroup)] := by
      unfold addRow
      rw [ensureGroup_present _ _ hany, pushSub_some _ _ m.id rfl,
        List.map_append]
      have hdmap : done.map (fun g =>
          if g.title == (subRowOf m t).main_category then
            { g with subcategories :=
                g.subcategories ++ [({ id := (subRowOf m t).id,
                                       title := (subRowOf m t).title } : SubCat)] }
          else g) = done := by
        have h : ∀ g ∈ done, (if g.title == (subRowOf m t).main_category then
            { g with subcategories :=
                g.subcategories ++ [({ id := (subRowOf m t).id,
                                       title := (subRowOf m t).title } : SubCat)] }
          else g) = id g := by
          intro g hg
          have hne : (g.title == (subRowOf m t).main_category) = false := by
            refine beq_eq_false_iff_ne.mpr ?_
            simpa [subRowOf] using hdone g hg
          simp [hne]
        rw [List.map_congr_left h, List.map_id]
      rw [hdmap]
      have hgrp :
          ([({ id := m.id, title := some m.title, subcategories := gs } : TopicGroup)]).map (fun g =>
            if g.title == (subRowOf m t).main_category then
              { g with subcategories :=
                  g.subcategories ++ [({ id := (subRowOf m t).id,
                                         title := (subRowOf m t).title } : SubCat)] }
            else g) =
          [({ id := m.id, title := some m.title,
              subcategories := gs ++ [({ id := t.id, title := t.title } : SubCat)] } : TopicGroup)] := by
        simp [subRowOf]
      rw [hgrp]
    rw [hstep, ih done (gs ++ [({ id := t.id, title := t.title } : SubCat)]) hdone]
    simp

/-- Folding the canonical blocks onto an accumulator whose titles avoid the
remaining main categories' titles produces one group per main category, in
block order. -/
theorem foldl_blocks (ts : List Topic) :
    ∀ (ms : List Topic) (done : List TopicGroup),
      (∀ g ∈ done, ∀ m ∈ ms, g.title ≠ some m.title) →
      ms.Pairwise (fun a b => a.title ≠ b.title) →
      ((ms.map (blockRows ts)).flatten).foldl addRow done =
        done ++ ms.map fun m =>
          { id := m.id, title := some m.title,
            subcategories := (subsSorted ts m).map fun t =>
              { id := t.id, title := t.title } } := by
  intro ms
  induction ms with
  | nil =>
    intro done _ _
    simp
  | cons m ms ih =>
    intro done hdone hpw
    simp only [List.map_cons, List.flatten_cons]
    rw [List.foldl_append]
    have hanyf : done.any
        (fun g => g.title == (mainRowOf m).main_category) = false := by
      cases hcase : done.any (fun g => g.title == (mainRowOf m).main_category) with
      | false => rfl
      | true =>
        exfalso
        obtain ⟨g, hg, hpg⟩ := List.any_eq_true.mp hcase
        exact hdone g hg m (List.mem_cons_self _ _)
          (by simpa [mainRowOf] using hpg)
    have hblock : (blockRows ts m).foldl addRow done =
        done ++ [{ id := m.id, title := some m.title,
                   subcategories := (subsSorted ts m).map fun t =>
                     { id := t.id, title := t.title } }] := by
      unfold blockRows
      rw [List.foldl_cons]
      have hmainstep : addRow done (mainRowOf m) =
          done ++ [({ id := m.id, title := some m.title,
                      subcategories := [] } : TopicGroup)] := by
        unfold addRow
        rw [ensureGroup_absent _ _ hanyf, pushSub_none _ _ rfl]
        rfl
      rw [hmainstep]
      have := foldl_subrows m (subsSorted ts m) done []
        (fun g hg => hdone g hg m (List.mem_cons_self _ _))
      simpa using this
    rw [hblock]
    have hdone' : ∀ g ∈ done ++
        [({ id := m.id, title := some m.title,
            subcategories := (subsSorted ts m).map fun t =>
              { id := t.id, title := t.title } } : TopicGroup)],
        ∀ m' ∈ ms, g.title ≠ some m'.title := by
      intro g hg m' hm'
      rcases List.mem_append.mp hg with h | h
      · exact hdone g h m' (List.mem_cons_of_mem _ hm')
      · have hgeq : g =
            ({ id := m.id, title := some m.title,
               subcategories := (subsSorted ts m).map fun t =>
                 { id := t.id, title := t.title } } : TopicGroup) := by
          simpa using h
        subst hgeq
        intro hh
        have htt : m.title = m'.title := by simpa using hh
        exact (List.pairwise_cons.mp hpw).1 m' hm' htt
    rw [ih _ hdone' (List.pairwise_cons.mp hpw).2]
    simp

/-- C8: on any topic table with distinct ids, distinct main-category
titles, and every subcategory's parent resolving to a main category (the
data-model invariants of the catalog), the topics endpoint returns exactly
one group per main category — `{ id, title, subcategories }` with every
subcategory nested under its parent's group — ordered by the main
category's id ascending, a main category with zero subcategories still
appearing as a group; the claim's two-topic example is the witness. -/
theorem c8_topic_catalog (ts : List Topic)
    (hid : (ts.map Topic.id).Nodup)
    (hpar : ∀ t ∈ ts, ∀ p, t.parent_id = some p →
      ∃ m ∈ ts, m.id = p ∧ m.parent_id = none)
    (htit : ((ts.filter isMainT).map Topic.title).Nodup) :
    getPrayerTopics ts = expectedGroups ts := by
  unfold getPrayerTopics
  rw [rows_eq ts hid hpar]
  unfold canonicalRows
  rw [foldl_blocks ts (mainsSorted ts) [] (by simp)
    (mains_pairwise_title ts htit)]
  simp [expectedGroups]

/-- Witness for `c8_topic_catalog`: the claim's example catalog
`{1: Job, parent null}` and `{16: I just lost my job, parent 1}` yields the
single group `{id 1, title Job, subcategories [{id 16, ...}]}`. -/
theorem c8_topic_catalog_witness :
    getPrayerTopics [⟨1, "Job", "main", none⟩,
        ⟨16, "I just lost my job", "job", some 1⟩] =
      [{ id := 1, title := some "Job",
         subcategories := [{ id := 16, title := "I just lost my job" }] }] :=
  (c8_topic_catalog
    [⟨1, "Job", "main", none⟩, ⟨16, "I just lost my job", "job", some 1⟩]
    (by decide) (by decide) (by decide)).trans (by decide)

end PrayerWarrior
